import Mathlib

/-!
Verification of the reading-tracker core of the pocketcloud_obsidian plugin.

The definitions below are a shallow embedding of the TypeScript source:
`ReadingDatabase` (snapshot store, activity classifier, streak engine),
`ReadingStats` (read-side statistics) and `ReadingAnalytics`
(daily-page aggregation, trend, heatmap).  JavaScript numbers that hold
percentages are embedded as rationals (`ℚ`), timestamps and page counts as
integers, `Math.round` as `fun x => ⌊x + 1/2⌋`, JS objects used as
string-keyed records as association lists, and wall-clock inputs
(`today`, `timestamp`) as explicit parameters resolved by the caller.
-/

/-- Embedding of JavaScript `Math.round` on rationals: round half toward
positive infinity. -/
def jround (x : ℚ) : ℤ := ⌊x + 1/2⌋

/-- Lookup in a string-keyed record embedded as an association list
(first matching key wins, as JS property access on objects built
front-to-back). -/
def lookupStr : List (String × ℤ) → String → Option ℤ
  | [], _ => none
  | (k, v) :: rest, key => if k = key then some v else lookupStr rest key

/-- Property assignment `obj[key] = v` on a string-keyed record: replace the
existing entry in place, or append a new one (JS objects keep insertion
order). -/
def setRecord : List (String × ℤ) → String → ℤ → List (String × ℤ)
  | [], key, v => [(key, v)]
  | (k, w) :: rest, key, v =>
      if k = key then (key, v) :: rest else (k, w) :: setRecord rest key v

/-- `bookPageCounts[bookId] || estimatedPagesPerBook`: JS `||` falls through
on the falsy value `0` as well as on a missing key. -/
def resolvePageCount (bpc : List (String × ℤ)) (bookId : String) (est : ℤ) : ℤ :=
  match lookupStr bpc bookId with
  | some n => if n = 0 then est else n
  | none => est

/-- `ReadingSnapshot` from ReadingDatabase.ts. -/
structure ReadingSnapshot where
  date : String
  bookId : String
  title : String
  authors : String
  progress : ℚ
  status : String
  timestamp : ℤ
deriving DecidableEq

/-- The `type` field of a `ReadingActivity`. -/
inductive ActivityType where
  | progress
  | finished
  | started
deriving DecidableEq

/-- `ReadingActivity` from ReadingDatabase.ts; the optional fields
`progressDelta`, `newProgress` and `timestamp` are embedded as `Option`. -/
structure ReadingActivity where
  date : String
  bookId : String
  title : String
  type : ActivityType
  progressDelta : Option ℚ
  newProgress : Option ℚ
  timestamp : Option ℤ
deriving DecidableEq

/-- `StreakData` from ReadingDatabase.ts. -/
structure StreakData where
  current : ℤ
  longest : ℤ
  lastReadDate : String
deriving DecidableEq

/-- `ReadingData`, the root aggregate from ReadingDatabase.ts. -/
structure ReadingData where
  version : ℤ
  snapshots : List ReadingSnapshot
  activities : List ReadingActivity
  streaks : StreakData
  lastSync : String
  bookPageCounts : List (String × ℤ)
deriving DecidableEq

/-- `DEFAULT_DATA` from ReadingDatabase.ts. -/
def DEFAULT_DATA : ReadingData :=
  { version := 1
    snapshots := []
    activities := []
    streaks := { current := 0, longest := 0, lastReadDate := "" }
    lastSync := ""
    bookPageCounts := [] }

/-- The observation passed to `addSnapshot`.  `read_percent` is the resolved
progress value (`book.read_percent ?? parseFloat(book.percent || '0')`),
`authors` is the resolved `book.metadata?.authors || ''`. -/
structure BookObs where
  fast_hash : String
  title : String
  authors : String
  read_percent : ℚ
  read_status : Option String
deriving DecidableEq

/-- `book.read_status || 'unknown'`: both a missing field and the falsy
empty string fall through to `'unknown'`. -/
def normStatus : Option String → String
  | some s => if s = "" then "unknown" else s
  | none => "unknown"

/-- The candidate snapshot built by `addSnapshot` from the observation and
the resolved `today`/`timestamp`. -/
def mkSnapshot (book : BookObs) (today : String) (ts : ℤ) : ReadingSnapshot :=
  { date := today
    bookId := book.fast_hash
    title := book.title
    authors := book.authors
    progress := book.read_percent
    status := normStatus book.read_status
    timestamp := ts }

/-- The prior-snapshot lookup in `addSnapshot`: filter by `bookId`, stable
sort descending by `timestamp`, take the head.  The fold keeps the first
element among those with the maximal timestamp, which is exactly what the
stable descending sort followed by `[0]` produces. -/
def pickNewer (acc : Option ReadingSnapshot) (s : ReadingSnapshot) :
    Option ReadingSnapshot :=
  match acc with
  | none => some s
  | some t => if s.timestamp > t.timestamp then some s else some t

def latestSnapshotFor (snaps : List ReadingSnapshot) (bookId : String) :
    Option ReadingSnapshot :=
  (snaps.filter (fun s => decide (s.bookId = bookId))).foldl pickNewer none

/-- Snapshot upsert in `addSnapshot`: `findIndex` on the `(bookId, date)`
key, replace in place when found, push otherwise.  `List.findIdx` returns
the length when nothing matches, mirroring the `idx >= 0` test. -/
def upsertSnapshot (snaps : List ReadingSnapshot) (snap : ReadingSnapshot) :
    List ReadingSnapshot :=
  let idx := snaps.findIdx (fun t => decide (t.bookId = snap.bookId ∧ t.date = snap.date))
  if idx < snaps.length then snaps.set idx snap else snaps ++ [snap]

/-- The activity decision table of `addSnapshot` (lines 206-253 of
ReadingDatabase.ts), as a function of the prior snapshot. -/
def classifyActivity (prev : Option ReadingSnapshot) (book : BookObs)
    (today : String) (ts : ℤ) : Option ReadingActivity :=
  match prev with
  | none =>
      if book.read_percent > 0 then
        some { date := today, bookId := book.fast_hash, title := book.title
               type := ActivityType.started, progressDelta := none
               newProgress := some book.read_percent, timestamp := some ts }
      else none
  | some prevS =>
      if book.read_percent > prevS.progress then
        if normStatus book.read_status = "read" ∧ prevS.status ≠ "read" then
          some { date := today, bookId := book.fast_hash, title := book.title
                 type := ActivityType.finished
                 progressDelta := some (book.read_percent - prevS.progress)
                 newProgress := some book.read_percent, timestamp := some ts }
        else
          some { date := today, bookId := book.fast_hash, title := book.title
                 type := ActivityType.progress
                 progressDelta := some (book.read_percent - prevS.progress)
                 newProgress := some book.read_percent, timestamp := some ts }
      else none

/-- The activity-list cap in `addSnapshot`: `slice(-100)` keeps the last 100
entries by array position when the list has grown past 100. -/
def capActivities (l : List ReadingActivity) : List ReadingActivity :=
  if l.length > 100 then l.drop (l.length - 100) else l

/-- Appending a classified activity in `addSnapshot`: `started`/`finished`
first remove any activity with the same `(bookId, date, type)`; `progress`
is appended unconditionally; then the 100-entry cap is applied.  The
activity carries the `bookId` and `today` the filter compares against. -/
def appendActivity (acts : List ReadingActivity) (act : ReadingActivity) :
    List ReadingActivity :=
  let base :=
    if act.type ≠ ActivityType.progress then
      acts.filter (fun a =>
        decide (¬(a.bookId = act.bookId ∧ a.date = act.date ∧ a.type = act.type)))
    else acts
  capActivities (base ++ [act])

/-- `ReadingDatabase.addSnapshot`: upsert the snapshot at `(bookId, today)`,
classify against the most recent prior snapshot, record the activity.
`today` and `ts` are the values the source resolves from `occurredAt` or
the wall clock. -/
def addSnapshot (d : ReadingData) (book : BookObs) (today : String) (ts : ℤ) :
    ReadingData × Option ReadingActivity :=
  let activity := classifyActivity (latestSnapshotFor d.snapshots book.fast_hash) book today ts
  let snapshots' := upsertSnapshot d.snapshots (mkSnapshot book today ts)
  let activities' :=
    match activity with
    | none => d.activities
    | some act => appendActivity d.activities act
  ({ d with snapshots := snapshots', activities := activities' }, activity)

/-- One call to `addSnapshot` during a sync: the observation together with
the resolved date and timestamp. -/
structure SyncCall where
  book : BookObs
  today : String
  timestamp : ℤ
deriving DecidableEq

/-- The store state after a sequence of `addSnapshot` calls starting from
the default (empty) data. -/
def applyCalls (calls : List SyncCall) : ReadingData :=
  calls.foldl (fun d c => (addSnapshot d c.book c.today c.timestamp).1) DEFAULT_DATA

/-- `ReadingDatabase.updateStreaks`; `today` and `yesterdayStr` are the
wall-clock values the source computes. -/
def updateStreaks (s : StreakData) (hasReadToday : Bool)
    (today yesterdayStr : String) : StreakData :=
  if hasReadToday then
    let current :=
      if s.lastReadDate = yesterdayStr then s.current + 1
      else if s.lastReadDate ≠ today then 1
      else s.current
    { current := current
      longest := if current > s.longest then current else s.longest
      lastReadDate := today }
  else if s.lastReadDate ≠ today ∧ s.lastReadDate ≠ yesterdayStr then
    { s with current := 0 }
  else s

/-- `ReadingDatabase.getTodayActivity`: the activities dated `today`. -/
def getTodayActivity (d : ReadingData) (today : String) : List ReadingActivity :=
  d.activities.filter (fun a => decide (a.date = today))

/-- `ReadingStats.getEstimatedPagesToday`.  The first branch is the source's
truthiness test `if (activity.progressDelta)`: it fires for any activity
whose `progressDelta` is present and nonzero, whatever its `type`; the
second branch handles `started` activities with a truthy `newProgress`
below 100. -/
def estimatedPagesStep (bpc : List (String × ℤ)) (est : ℤ) (total : ℤ)
    (activity : ReadingActivity) : ℤ :=
  let actualPageCount := resolvePageCount bpc activity.bookId est
  if activity.progressDelta.getD 0 ≠ 0 then
    total + jround (activity.progressDelta.getD 0 / 100 * actualPageCount)
  else if activity.type = ActivityType.started ∧ activity.newProgress.getD 0 ≠ 0 ∧
      activity.newProgress.getD 0 < 100 then
    total + jround (activity.newProgress.getD 0 / 100 * actualPageCount)
  else total

def getEstimatedPagesToday (d : ReadingData) (today : String) (est : ℤ) : ℤ :=
  (getTodayActivity d today).foldl (estimatedPagesStep d.bookPageCounts est) 0

/-- The estimated-pages-today computation as the specification describes it:
only `progress`-type activities contribute their `progressDelta`, `started`
activities contribute `newProgress` when below 100, and activities of other
types contribute nothing. -/
def claimedEstimatedPagesToday (d : ReadingData) (today : String) (est : ℤ) : ℤ :=
  ((getTodayActivity d today).map
    (fun a =>
      let pc := resolvePageCount d.bookPageCounts a.bookId est
      if a.type = ActivityType.progress then
        jround (a.progressDelta.getD 0 / 100 * pc)
      else if a.type = ActivityType.started ∧ a.newProgress.getD 0 < 100 then
        jround (a.newProgress.getD 0 / 100 * pc)
      else 0)).sum

/-- The `dailyPages` aggregation of `generateReadingAnalytics` (lines 98-106
of ReadingAnalytics.ts): for each activity with `type === 'progress'` and a
truthy `progressDelta`, add the rounded page value to the entry for its
date. -/
def dailyPagesStep (bpc : List (String × ℤ)) (est : ℤ)
    (dp : List (String × ℤ)) (a : ReadingActivity) : List (String × ℤ) :=
  if a.type = ActivityType.progress ∧ a.progressDelta.getD 0 ≠ 0 then
    let pageCount := resolvePageCount bpc a.bookId est
    let pagesRead := jround (a.progressDelta.getD 0 / 100 * pageCount)
    setRecord dp a.date ((lookupStr dp a.date).getD 0 + pagesRead)
  else dp

def computeDailyPages (acts : List ReadingActivity) (bpc : List (String × ℤ))
    (est : ℤ) : List (String × ℤ) :=
  acts.foldl (dailyPagesStep bpc est) []

/-- The trend computation of `generateReadingAnalytics` (lines 176-182 of
ReadingAnalytics.ts), as a function of the two window totals. -/
def computeTrendPercent (totalPagesPrev30Days totalPages30Days : ℤ) : ℚ :=
  if totalPagesPrev30Days > 0 then
    ((totalPages30Days : ℚ) - totalPagesPrev30Days) / totalPagesPrev30Days * 100
  else if totalPages30Days > 0 then 100
  else 0

/-- Gregorian leap-year rule, as implemented by the JS `Date` arithmetic the
heatmap loop iterates with. -/
def isLeapYear (y : ℕ) : Bool :=
  y % 4 = 0 ∧ (y % 100 ≠ 0 ∨ y % 400 = 0)

/-- Days in a Gregorian month (months are 1-based here). -/
def daysInMonth (y m : ℕ) : ℕ :=
  if m = 2 then (if isLeapYear y then 29 else 28)
  else if m = 4 ∨ m = 6 ∨ m = 9 ∨ m = 11 then 30
  else 31

/-- Two-digit zero padding, as in `String(n).padStart(2, '0')`. -/
def pad2 (n : ℕ) : String :=
  if n < 10 then "0" ++ toString n else toString n

/-- `toLocalDateString`: the `YYYY-MM-DD` rendering of a date. -/
def toLocalDateString (y m d : ℕ) : String :=
  toString y ++ "-" ++ pad2 m ++ "-" ++ pad2 d

/-- One cell of the heatmap returned by `getHeatmapData`. -/
structure HeatCell where
  date : String
  pages : ℤ
deriving DecidableEq

/-- The `while (current <= endDate)` loop of `getHeatmapData`, with the JS
`Date` cursor embedded as a `(year, month, day)` triple advanced by the
Gregorian calendar, and fuel making the recursion structural.  The loop
condition is the chronological comparison `current <= Dec 31 of year`. -/
def heatmapLoop (dp : List (String × ℤ)) (year : ℕ) :
    ℕ → ℕ → ℕ → ℕ → List HeatCell
  | 0, _, _, _ => []
  | fuel + 1, y, m, d =>
      if y < year ∨ (y = year ∧ (m < 12 ∨ (m = 12 ∧ d ≤ 31))) then
        { date := toLocalDateString y m d
          pages := (lookupStr dp (toLocalDateString y m d)).getD 0 } ::
          (if d < daysInMonth y m then heatmapLoop dp year fuel y m (d + 1)
           else if m < 12 then heatmapLoop dp year fuel y (m + 1) 1
           else heatmapLoop dp year fuel (y + 1) 1 1)
      else []

/-- `getHeatmapData` from ReadingAnalytics.ts: iterate from Jan 1 to Dec 31
of `year`, attaching `dailyPages[dateStr] || 0` to every day.  400 units of
fuel exceed the at most 366 iterations of the source loop. -/
def getHeatmapData (year : ℕ) (dp : List (String × ℤ)) : List HeatCell :=
  heatmapLoop dp year 400 year 1 1

/-- The days of month `m` of year `y`, in order, as `(month, day)` pairs. -/
def monthDays (y m : ℕ) : List (ℕ × ℕ) :=
  (List.range' 1 (daysInMonth y m)).map (fun d => (m, d))

/-- Every calendar day of year `y` from January 1 through December 31, in
calendar order. -/
def yearDays (y : ℕ) : List (ℕ × ℕ) :=
  (List.range' 1 12).flatMap (monthDays y)

/-- The calendar days from `(m, d)` through `(12, 31)` of year `y`, in
order; `daysFrom y 1 1 = yearDays y`. -/
def daysFrom (y m d : ℕ) : List (ℕ × ℕ) :=
  (List.range' d (daysInMonth y m + 1 - d)).map (fun d' => (m, d')) ++
    (List.range' (m + 1) (12 - m)).flatMap (monthDays y)

/-- The heatmap colour assignment of `DashboardView.drawHeatmap` (lines
577-592 of DashboardView.ts): the neutral colour for zero pages, then the
`>= 50 / >= 30 / >= 15 / > 0` buckets. -/
def heatmapColor (pages : ℤ) : String :=
  if pages > 0 then
    if pages ≥ 50 then "#22c55e"
    else if pages ≥ 30 then "#4ade80"
    else if pages ≥ 15 then "#86efac"
    else "#bbf7d0"
  else "var(--background-modifier-border)"

/-- Recursive description of `upsertSnapshot`: replace the first entry with
the `(bookId, date)` key of `snap`, append when there is none. -/
def upsertSnapshotRec (snap : ReadingSnapshot) :
    List ReadingSnapshot → List ReadingSnapshot
  | [] => [snap]
  | t :: ts =>
      if t.bookId = snap.bookId ∧ t.date = snap.date then snap :: ts
      else t :: upsertSnapshotRec snap ts

/-- A sample prior snapshot used to exercise the theorems below. -/
def snapB1 : ReadingSnapshot :=
  { date := "2026-10-10", bookId := "b1", title := "T", authors := "A",
    progress := 50, status := "reading", timestamp := 100 }

/-- A sample store holding the single snapshot `snapB1`. -/
def dataWithSnap : ReadingData := { DEFAULT_DATA with snapshots := [snapB1] }

/-- A sample observation that finishes the book of `snapB1`. -/
def bookFinishedObs : BookObs :=
  { fast_hash := "b1", title := "T", authors := "A", read_percent := 100,
    read_status := some "read" }

/-- A sample observation that regresses below the progress of `snapB1`. -/
def bookRegressObs : BookObs :=
  { fast_hash := "b1", title := "T", authors := "A", read_percent := 40,
    read_status := some "reading" }

/-- A sample `progress` activity. -/
def act0 : ReadingActivity :=
  { date := "2026-10-11", bookId := "b1", title := "T",
    type := ActivityType.progress, progressDelta := some 5,
    newProgress := some 10, timestamp := some 0 }

/-- A sample `finished` activity dated 2026-10-11 with a delta of 50. -/
def finishedAct : ReadingActivity :=
  { date := "2026-10-11", bookId := "b1", title := "T",
    type := ActivityType.finished, progressDelta := some 50,
    newProgress := some 100, timestamp := some 0 }

/-- A sample store whose only activity is `finishedAct`. -/
def dataFinishedToday : ReadingData :=
  { DEFAULT_DATA with activities := [finishedAct] }

/-! ### Lemmas about the prior-snapshot lookup -/

theorem foldl_pickNewer_some (l : List ReadingSnapshot) (t : ReadingSnapshot) :
    ∃ r, l.foldl pickNewer (some t) = some r ∧ (r = t ∨ r ∈ l) ∧
      t.timestamp ≤ r.timestamp ∧ ∀ s ∈ l, s.timestamp ≤ r.timestamp := by
  induction l generalizing t with
  | nil => exact ⟨t, rfl, Or.inl rfl, le_refl _, by simp⟩
  | cons s l ih =>
      have hpick : pickNewer (some t) s =
          some (if s.timestamp > t.timestamp then s else t) := by
        simp [pickNewer]
        split <;> simp
      by_cases hst : s.timestamp > t.timestamp
      · obtain ⟨r, hr, hmem, hle, hall⟩ := ih s
        refine ⟨r, ?_, ?_, ?_, ?_⟩
        · simpa [List.foldl_cons, hpick, if_pos hst] using hr
        · rcases hmem with h | h
          · exact Or.inr (by simp [h])
          · exact Or.inr (by simp [h])
        · exact le_trans (le_of_lt hst) hle
        · intro x hx
          rcases List.mem_cons.mp hx with h | h
          · exact h ▸ hle
          · exact hall x h
      · obtain ⟨r, hr, hmem, hle, hall⟩ := ih t
        refine ⟨r, ?_, ?_, ?_, ?_⟩
        · simpa [List.foldl_cons, hpick, if_neg hst] using hr
        · rcases hmem with h | h
          · exact Or.inl h
          · exact Or.inr (by simp [h])
        · exact hle
        · intro x hx
          rcases List.mem_cons.mp hx with h | h
          · exact h ▸ le_trans (le_of_not_lt hst) hle
          · exact hall x h

theorem latestSnapshotFor_eq_none (snaps : List ReadingSnapshot) (bid : String)
    (h : ∀ s ∈ snaps, s.bookId ≠ bid) : latestSnapshotFor snaps bid = none := by
  have hfil : snaps.filter (fun s => decide (s.bookId = bid)) = [] := by
    rw [List.filter_eq_nil_iff]
    intro s hs
    simpa using h s hs
  simp [latestSnapshotFor, hfil]

theorem latestSnapshotFor_eq_some (snaps : List ReadingSnapshot) (bid : String)
    (prev : ReadingSnapshot) (hmem : prev ∈ snaps) (hbid : prev.bookId = bid)
    (hmax : ∀ s ∈ snaps, s.bookId = bid → s = prev ∨ s.timestamp < prev.timestamp) :
    latestSnapshotFor snaps bid = some prev := by
  have hmemf : prev ∈ snaps.filter (fun s => decide (s.bookId = bid)) :=
    List.mem_filter.mpr ⟨hmem, by simpa using hbid⟩
  rcases hl : snaps.filter (fun s => decide (s.bookId = bid)) with _ | ⟨a, l⟩
  · rw [hl] at hmemf; simp at hmemf
  · have hsub : ∀ x ∈ a :: l, x ∈ snaps ∧ x.bookId = bid := by
      intro x hx
      have : x ∈ snaps.filter (fun s => decide (s.bookId = bid)) := hl ▸ hx
      have h2 := List.mem_filter.mp this
      exact ⟨h2.1, by simpa using h2.2⟩
    obtain ⟨r, hr, hrmem, hrle, hrall⟩ := foldl_pickNewer_some l a
    have hrin : r ∈ a :: l := by
      rcases hrmem with h | h
      · simp [h]
      · simp [h]
    have hprevle : prev.timestamp ≤ r.timestamp := by
      rw [hl] at hmemf
      rcases List.mem_cons.mp hmemf with h | h
      · exact h ▸ hrle
      · exact hrall prev h
    have hreq : r = prev := by
      rcases hmax r (hsub r hrin).1 (hsub r hrin).2 with h | h
      · exact h
      · exact absurd hprevle (not_le.mpr h)
    rw [latestSnapshotFor, hl]
    simpa [List.foldl_cons, pickNewer, hreq] using hr

/-! ### Lemmas about the snapshot upsert -/

theorem upsertSnapshot_eq_rec (snaps : List ReadingSnapshot)
    (snap : ReadingSnapshot) :
    upsertSnapshot snaps snap = upsertSnapshotRec snap snaps := by
  induction snaps with
  | nil => simp [upsertSnapshot, upsertSnapshotRec]
  | cons t ts ih =>
      by_cases hk : t.bookId = snap.bookId ∧ t.date = snap.date
      · simp [upsertSnapshot, upsertSnapshotRec, List.findIdx_cons, hk]
      · have hcond : (fun t => decide (t.bookId = snap.bookId ∧ t.date = snap.date)) t = false := by
          simpa using hk
        simp only [upsertSnapshot, upsertSnapshotRec, List.findIdx_cons, hcond,
          cond_false, List.length_cons, if_neg hk] at ih ⊢
        rcases Nat.lt_or_ge (ts.findIdx fun t => decide (t.bookId = snap.bookId ∧ t.date = snap.date)) ts.length with hlt | hge
        · simp only [if_pos hlt] at ih
          rw [if_pos (Nat.succ_lt_succ hlt), List.set_cons_succ, ih]
        · rw [if_neg (by omega)] at ih
          rw [if_neg (by omega), List.cons_append, ih]

theorem mem_upsertSnapshotRec (snap : ReadingSnapshot)
    (snaps : List ReadingSnapshot) : snap ∈ upsertSnapshotRec snap snaps := by
  induction snaps with
  | nil => simp [upsertSnapshotRec]
  | cons t ts ih =>
      by_cases hk : t.bookId = snap.bookId ∧ t.date = snap.date
      · simp [upsertSnapshotRec, hk]
      · simp only [upsertSnapshotRec, if_neg hk]
        exact List.mem_cons_of_mem t ih

theorem filter_upsertSnapshotRec_key (snap : ReadingSnapshot)
    (snaps : List ReadingSnapshot) (bid dt : String)
    (h : snap.bookId = bid ∧ snap.date = dt) :
    (upsertSnapshotRec snap snaps).filter
        (fun s => decide (s.bookId = bid ∧ s.date = dt)) =
      snap :: (snaps.filter (fun s => decide (s.bookId = bid ∧ s.date = dt))).tail := by
  induction snaps with
  | nil => simp [upsertSnapshotRec, List.filter_cons, h]
  | cons t ts ih =>
      by_cases hk : t.bookId = snap.bookId ∧ t.date = snap.date
      · have ht : t.bookId = bid ∧ t.date = dt := ⟨hk.1.trans h.1, hk.2.trans h.2⟩
        simp [upsertSnapshotRec, hk, List.filter_cons, h, ht]
      · have ht : ¬(t.bookId = bid ∧ t.date = dt) := by
          intro hc
          exact hk ⟨hc.1.trans h.1.symm, hc.2.trans h.2.symm⟩
        simp only [upsertSnapshotRec, if_neg hk, List.filter_cons]
        simp only [decide_eq_true_eq, if_neg ht]
        exact ih

theorem filter_upsertSnapshotRec_ne (snap : ReadingSnapshot)
    (snaps : List ReadingSnapshot) (bid dt : String)
    (h : ¬(snap.bookId = bid ∧ snap.date = dt)) :
    (upsertSnapshotRec snap snaps).filter
        (fun s => decide (s.bookId = bid ∧ s.date = dt)) =
      snaps.filter (fun s => decide (s.bookId = bid ∧ s.date = dt)) := by
  induction snaps with
  | nil => simp [upsertSnapshotRec, List.filter_cons, h]
  | cons t ts ih =>
      by_cases hk : t.bookId = snap.bookId ∧ t.date = snap.date
      · have ht : ¬(t.bookId = bid ∧ t.date = dt) := by
          intro hc
          exact h ⟨hk.1.symm.trans hc.1, hk.2.symm.trans hc.2⟩
        simp [upsertSnapshotRec, hk, List.filter_cons, h, ht]
      · simp only [upsertSnapshotRec, if_neg hk, List.filter_cons]
        by_cases ht : t.bookId = bid ∧ t.date = dt
        · rw [if_pos (by simpa using ht), if_pos (by simpa using ht), ih]
        · rw [if_neg (by simpa using ht), if_neg (by simpa using ht), ih]

/-! ### Lemmas about the activity cap and the activity append -/

theorem length_capActivities (l : List ReadingActivity) :
    (capActivities l).length = min l.length 100 := by
  unfold capActivities
  split
  · next h => simp [List.length_drop]; omega
  · next h => simp at h; omega

theorem capActivities_suffix (l : List ReadingActivity) : capActivities l <:+ l := by
  unfold capActivities
  split
  · exact List.drop_suffix _ _
  · exact List.suffix_refl _

theorem capActivities_of_le (l : List ReadingActivity) (h : l.length ≤ 100) :
    capActivities l = l := by
  unfold capActivities
  rw [if_neg (by omega)]

theorem capActivities_append_singleton (base : List ReadingActivity)
    (act : ReadingActivity) :
    ∃ k, k ≤ base.length ∧
      capActivities (base ++ [act]) = base.drop k ++ [act] := by
  unfold capActivities
  split
  · next h =>
      simp only [List.length_append, List.length_cons, List.length_nil] at h
      refine ⟨(base ++ [act]).length - 100, ?_, ?_⟩
      · simp only [List.length_append, List.length_cons, List.length_nil]
        omega
      · rw [List.drop_append_of_le_length]
        simp only [List.length_append, List.length_cons, List.length_nil]
        omega
  · exact ⟨0, Nat.zero_le _, by simp⟩

theorem addSnapshot_snd (d : ReadingData) (book : BookObs) (today : String) (ts : ℤ) :
    (addSnapshot d book today ts).2 =
      classifyActivity (latestSnapshotFor d.snapshots book.fast_hash) book today ts := rfl

theorem addSnapshot_fst_snapshots (d : ReadingData) (book : BookObs)
    (today : String) (ts : ℤ) :
    (addSnapshot d book today ts).1.snapshots =
      upsertSnapshot d.snapshots (mkSnapshot book today ts) := rfl

theorem addSnapshot_fst_activities (d : ReadingData) (book : BookObs)
    (today : String) (ts : ℤ) :
    (addSnapshot d book today ts).1.activities =
      match classifyActivity (latestSnapshotFor d.snapshots book.fast_hash) book today ts with
      | none => d.activities
      | some act => appendActivity d.activities act := rfl

theorem classifyActivity_fields (prev : Option ReadingSnapshot) (book : BookObs)
    (today : String) (ts : ℤ) (act : ReadingActivity)
    (h : classifyActivity prev book today ts = some act) :
    act.bookId = book.fast_hash ∧ act.date = today := by
  rcases prev with _ | prevS <;> simp only [classifyActivity] at h
  · split at h
    · cases h; exact ⟨rfl, rfl⟩
    · cases h
  · split at h
    · split at h
      · cases h; exact ⟨rfl, rfl⟩
      · cases h; exact ⟨rfl, rfl⟩
    · cases h

/-! ### Claim theorems -/

/-- Claim C1: for every observation processed by `addSnapshot`, with the
prior snapshot taken as the one with the greatest timestamp for that
`bookId`: no prior snapshot and `progress > 0` yields a `started` activity
with `newProgress = progress`; no prior snapshot and `progress = 0` yields
nothing; a progress increase together with a transition into status
`"read"` yields a `finished` activity carrying the delta; any other
progress increase yields a `progress` activity carrying the delta; and a
progress that is unchanged or decreased yields nothing. -/
theorem addSnapshot_activity_classification (d : ReadingData) (book : BookObs)
    (today : String) (ts : ℤ) :
    ((∀ s ∈ d.snapshots, s.bookId ≠ book.fast_hash) → 0 < book.read_percent →
        (addSnapshot d book today ts).2 =
          some { date := today, bookId := book.fast_hash, title := book.title,
                 type := ActivityType.started, progressDelta := none,
                 newProgress := some book.read_percent, timestamp := some ts })
    ∧ ((∀ s ∈ d.snapshots, s.bookId ≠ book.fast_hash) → book.read_percent = 0 →
        (addSnapshot d book today ts).2 = none)
    ∧ (∀ prev ∈ d.snapshots, prev.bookId = book.fast_hash →
        (∀ s ∈ d.snapshots, s.bookId = book.fast_hash →
          s = prev ∨ s.timestamp < prev.timestamp) →
        ((prev.progress < book.read_percent → normStatus book.read_status = "read" →
            prev.status ≠ "read" →
            (addSnapshot d book today ts).2 =
              some { date := today, bookId := book.fast_hash, title := book.title,
                     type := ActivityType.finished,
                     progressDelta := some (book.read_percent - prev.progress),
                     newProgress := some book.read_percent, timestamp := some ts })
          ∧ (prev.progress < book.read_percent →
              ¬(normStatus book.read_status = "read" ∧ prev.status ≠ "read") →
              (addSnapshot d book today ts).2 =
                some { date := today, bookId := book.fast_hash, title := book.title,
                       type := ActivityType.progress,
                       progressDelta := some (book.read_percent - prev.progress),
                       newProgress := some book.read_percent, timestamp := some ts })
          ∧ (book.read_percent ≤ prev.progress →
              (addSnapshot d book today ts).2 = none))) := by
  refine ⟨?_, ?_, ?_⟩
  · intro hno hpos
    rw [addSnapshot_snd, latestSnapshotFor_eq_none _ _ hno]
    simp only [classifyActivity]
    rw [if_pos hpos]
  · intro hno hzero
    rw [addSnapshot_snd, latestSnapshotFor_eq_none _ _ hno]
    simp only [classifyActivity]
    rw [if_neg (by rw [hzero]; exact lt_irrefl 0)]
  · intro prev hmem hbid hmax
    rw [addSnapshot_snd, latestSnapshotFor_eq_some _ _ prev hmem hbid hmax]
    refine ⟨?_, ?_, ?_⟩
    · intro hlt hread hprev
      simp only [classifyActivity]
      rw [if_pos hlt, if_pos ⟨hread, hprev⟩]
    · intro hlt hnot
      simp only [classifyActivity]
      rw [if_pos hlt, if_neg hnot]
    · intro hle
      simp only [classifyActivity]
      rw [if_neg (not_lt.mpr hle)]

theorem addSnapshot_activity_classification_witness :
    (addSnapshot dataWithSnap bookFinishedObs "2026-10-11" 200).2 =
      some { date := "2026-10-11", bookId := "b1", title := "T",
             type := ActivityType.finished, progressDelta := some 50,
             newProgress := some 100, timestamp := some 200 } := by
  have h := (addSnapshot_activity_classification dataWithSnap bookFinishedObs
      "2026-10-11" 200).2.2 snapB1 (by simp [dataWithSnap, DEFAULT_DATA]) rfl
      (by intro s hs _
          simp only [dataWithSnap, DEFAULT_DATA, List.mem_singleton] at hs
          exact Or.inl hs)
  have h2 := h.1 (by norm_num [snapB1, bookFinishedObs]) rfl (by decide)
  have h3 : (100 : ℚ) - 50 = 50 := by norm_num
  simpa [bookFinishedObs, snapB1, h3] using h2

/-- Claim C4: when the new observation's progress is less than or equal to
the most recent prior snapshot's progress for that book, `addSnapshot`
produces no activity, the activities list is unchanged, and the snapshot is
still recorded (upserted at the `(bookId, date)` key). -/
theorem addSnapshot_no_regression (d : ReadingData) (book : BookObs)
    (today : String) (ts : ℤ) (prev : ReadingSnapshot)
    (hmem : prev ∈ d.snapshots) (hbid : prev.bookId = book.fast_hash)
    (hmax : ∀ s ∈ d.snapshots, s.bookId = book.fast_hash →
      s = prev ∨ s.timestamp < prev.timestamp)
    (hle : book.read_percent ≤ prev.progress) :
    (addSnapshot d book today ts).2 = none ∧
    (addSnapshot d book today ts).1.activities = d.activities ∧
    (addSnapshot d book today ts).1.snapshots =
      upsertSnapshot d.snapshots (mkSnapshot book today ts) ∧
    mkSnapshot book today ts ∈ (addSnapshot d book today ts).1.snapshots := by
  have hclass : classifyActivity (latestSnapshotFor d.snapshots book.fast_hash)
      book today ts = none := by
    rw [latestSnapshotFor_eq_some _ _ prev hmem hbid hmax]
    simp only [classifyActivity]
    rw [if_neg (not_lt.mpr hle)]
  refine ⟨?_, ?_, ?_, ?_⟩
  · rw [addSnapshot_snd, hclass]
  · rw [addSnapshot_fst_activities, hclass]
  · exact addSnapshot_fst_snapshots d book today ts
  · rw [addSnapshot_fst_snapshots, upsertSnapshot_eq_rec]
    exact mem_upsertSnapshotRec _ _

theorem addSnapshot_no_regression_witness :
    (addSnapshot dataWithSnap bookRegressObs "2026-10-11" 200).2 = none ∧
    (addSnapshot dataWithSnap bookRegressObs "2026-10-11" 200).1.activities =
      dataWithSnap.activities ∧
    (addSnapshot dataWithSnap bookRegressObs "2026-10-11" 200).1.snapshots =
      upsertSnapshot dataWithSnap.snapshots (mkSnapshot bookRegressObs "2026-10-11" 200) ∧
    mkSnapshot bookRegressObs "2026-10-11" 200 ∈
      (addSnapshot dataWithSnap bookRegressObs "2026-10-11" 200).1.snapshots :=
  addSnapshot_no_regression dataWithSnap bookRegressObs "2026-10-11" 200 snapB1
    (by simp [dataWithSnap, DEFAULT_DATA]) rfl
    (by intro s hs _
        simp only [dataWithSnap, DEFAULT_DATA, List.mem_singleton] at hs
        exact Or.inl hs)
    (by norm_num [snapB1, bookRegressObs])

/-- Claim C2: `updateStreaks` performs exactly the five-branch transition of
the streak engine.  When `hasReadToday` holds, `current` increments by 1 if
`lastReadDate` was yesterday, resets to 1 if it was neither yesterday nor
today, stays put if it was today, and in each case `lastReadDate` becomes
today and `longest` becomes `max longest current`; when `hasReadToday`
fails, `current` drops to 0 if `lastReadDate` is neither today nor
yesterday, and the state is untouched otherwise. -/
theorem updateStreaks_transition (s : StreakData) (hasReadToday : Bool)
    (today yesterdayStr : String) (hne : today ≠ yesterdayStr) :
    (hasReadToday = true → s.lastReadDate = yesterdayStr →
        updateStreaks s hasReadToday today yesterdayStr =
          { current := s.current + 1, longest := max s.longest (s.current + 1),
            lastReadDate := today })
    ∧ (hasReadToday = true → s.lastReadDate ≠ yesterdayStr → s.lastReadDate ≠ today →
        updateStreaks s hasReadToday today yesterdayStr =
          { current := 1, longest := max s.longest 1, lastReadDate := today })
    ∧ (hasReadToday = true → s.lastReadDate = today →
        updateStreaks s hasReadToday today yesterdayStr =
          { current := s.current, longest := max s.longest s.current,
            lastReadDate := today })
    ∧ (hasReadToday = false → s.lastReadDate ≠ today → s.lastReadDate ≠ yesterdayStr →
        updateStreaks s hasReadToday today yesterdayStr = { s with current := 0 })
    ∧ (hasReadToday = false →
        (s.lastReadDate = today ∨ s.lastReadDate = yesterdayStr) →
        updateStreaks s hasReadToday today yesterdayStr = s) := by
  have hmax : ∀ a b : ℤ, (if b > a then b else a) = max a b := by
    intro a b
    rcases le_or_lt b a with h | h
    · rw [max_eq_left h, if_neg (not_lt.mpr h)]
    · rw [max_eq_right (le_of_lt h), if_pos h]
  refine ⟨?_, ?_, ?_, ?_, ?_⟩
  · intro hr hy
    simp [updateStreaks, hr, hy, hmax]
  · intro hr hy ht
    simp [updateStreaks, hr, hy, ht, hmax]
  · intro hr ht
    have hy : s.lastReadDate ≠ yesterdayStr := by rw [ht]; exact hne
    simp [updateStreaks, hr, hy, ht, hmax, hne]
  · intro hr ht hy
    simp [updateStreaks, hr, ht, hy]
  · intro hr h
    rcases h with h | h <;> simp [updateStreaks, hr, h]

theorem updateStreaks_transition_witness :
    updateStreaks { current := 3, longest := 5, lastReadDate := "2026-10-10" }
        true "2026-10-11" "2026-10-10" =
      { current := 4, longest := 5, lastReadDate := "2026-10-11" } := by
  have h := (updateStreaks_transition
      { current := 3, longest := 5, lastReadDate := "2026-10-10" }
      true "2026-10-11" "2026-10-10" (by decide)).1 rfl rfl
  rw [h]
  decide

/-- Claim C10: `updateStreaks` preserves `0 ≤ current ≤ longest`, and
`longest` never decreases. -/
theorem updateStreaks_invariant (s : StreakData) (hasReadToday : Bool)
    (today yesterdayStr : String) (h0 : 0 ≤ s.current) (h1 : s.current ≤ s.longest) :
    0 ≤ (updateStreaks s hasReadToday today yesterdayStr).current ∧
    (updateStreaks s hasReadToday today yesterdayStr).current ≤
      (updateStreaks s hasReadToday today yesterdayStr).longest ∧
    s.longest ≤ (updateStreaks s hasReadToday today yesterdayStr).longest := by
  cases hasReadToday <;>
    by_cases hy : s.lastReadDate = yesterdayStr <;>
    by_cases ht : s.lastReadDate = today <;>
    simp [updateStreaks, hy, ht] <;>
    (try split_ifs) <;> omega

theorem updateStreaks_invariant_witness :
    0 ≤ (updateStreaks { current := 2, longest := 2, lastReadDate := "2026-10-10" }
        true "2026-10-11" "2026-10-10").current ∧
    (updateStreaks { current := 2, longest := 2, lastReadDate := "2026-10-10" }
        true "2026-10-11" "2026-10-10").current ≤
      (updateStreaks { current := 2, longest := 2, lastReadDate := "2026-10-10" }
        true "2026-10-11" "2026-10-10").longest ∧
    (2 : ℤ) ≤ (updateStreaks { current := 2, longest := 2, lastReadDate := "2026-10-10" }
        true "2026-10-11" "2026-10-10").longest :=
  updateStreaks_invariant { current := 2, longest := 2, lastReadDate := "2026-10-10" }
    true "2026-10-11" "2026-10-10" (by decide) (by decide)

/-- Claim C8: the trend computation returns
`(last30 - prev30) / prev30 * 100` whenever the previous window total is
positive, exactly 100 when the previous total is 0 and the current one is
positive, and exactly 0 when both are 0. -/
theorem computeTrendPercent_cases (prev30 last30 : ℤ) :
    (0 < prev30 →
        computeTrendPercent prev30 last30 =
          ((last30 : ℚ) - prev30) / prev30 * 100)
    ∧ (prev30 = 0 → 0 < last30 → computeTrendPercent prev30 last30 = 100)
    ∧ (prev30 = 0 → last30 = 0 → computeTrendPercent prev30 last30 = 0) := by
  refine ⟨?_, ?_, ?_⟩
  · intro h
    simp [computeTrendPercent, h]
  · intro h h2
    simp [computeTrendPercent, h, h2, not_lt.mpr (le_refl (0 : ℤ))]
  · intro h h2
    simp [computeTrendPercent, h, h2]

theorem computeTrendPercent_cases_witness :
    computeTrendPercent 0 40 = 100 ∧ computeTrendPercent 0 0 = 0 ∧
    computeTrendPercent 20 30 = 50 := by
  refine ⟨(computeTrendPercent_cases 0 40).2.1 rfl (by norm_num),
    (computeTrendPercent_cases 0 0).2.2 rfl rfl, ?_⟩
  rw [(computeTrendPercent_cases 20 30).1 (by norm_num)]
  norm_num

/-- Claim C6: starting from the empty store, any sequence of `addSnapshot`
calls leaves at most one snapshot per `(bookId, date)` key, and that
snapshot is exactly the one built from the last call for that key
(last-write-wins per key). -/
theorem snapshot_key_uniqueness (calls : List SyncCall) (bid dt : String) :
    (applyCalls calls).snapshots.filter
        (fun s => decide (s.bookId = bid ∧ s.date = dt)) =
      ((calls.filter (fun c => decide (c.book.fast_hash = bid ∧ c.today = dt))).getLast?.map
        (fun c => mkSnapshot c.book c.today c.timestamp)).toList := by
  induction calls using List.reverseRecOn with
  | nil => simp [applyCalls, DEFAULT_DATA]
  | append_singleton cs c ih =>
      have happ : applyCalls (cs ++ [c]) =
          (addSnapshot (applyCalls cs) c.book c.today c.timestamp).1 := by
        simp [applyCalls, List.foldl_append]
      rw [happ, addSnapshot_fst_snapshots, upsertSnapshot_eq_rec]
      by_cases hk : c.book.fast_hash = bid ∧ c.today = dt
      · have hkey : (mkSnapshot c.book c.today c.timestamp).bookId = bid ∧
            (mkSnapshot c.book c.today c.timestamp).date = dt := by
          simpa [mkSnapshot] using hk
        rw [filter_upsertSnapshotRec_key _ _ _ _ hkey, ih, List.filter_append]
        have hc : List.filter (fun c => decide (c.book.fast_hash = bid ∧ c.today = dt)) [c] = [c] := by
          simp [hk]
        rw [hc, List.getLast?_concat]
        cases h2 : (cs.filter (fun c => decide (c.book.fast_hash = bid ∧ c.today = dt))).getLast? <;> simp
      · have hkey : ¬((mkSnapshot c.book c.today c.timestamp).bookId = bid ∧
            (mkSnapshot c.book c.today c.timestamp).date = dt) := by
          simpa [mkSnapshot] using hk
        rw [filter_upsertSnapshotRec_ne _ _ _ _ hkey, ih, List.filter_append]
        have hc : List.filter (fun c => decide (c.book.fast_hash = bid ∧ c.today = dt)) [c] = [] := by
          simp [hk]
        rw [hc, List.append_nil]

/-- Claim C7: the activity cap truncates an over-long list to the most
recent 100 entries by array position; every `addSnapshot` call that appends
an activity stores the capped append of that activity; and starting from
the empty store the activities list never exceeds 100 entries. -/
theorem activities_capped :
    (∀ l : List ReadingActivity, 100 < l.length →
        capActivities l = l.drop (l.length - 100) ∧
        (capActivities l).length = 100 ∧ capActivities l <:+ l)
    ∧ (∀ (d : ReadingData) (book : BookObs) (today : String) (ts : ℤ)
        (act : ReadingActivity), (addSnapshot d book today ts).2 = some act →
        ∃ base : List ReadingActivity, base.Sublist d.activities ∧
          (addSnapshot d book today ts).1.activities = capActivities (base ++ [act]))
    ∧ (∀ calls : List SyncCall, (applyCalls calls).activities.length ≤ 100) := by
  refine ⟨?_, ?_, ?_⟩
  · intro l h
    refine ⟨?_, ?_, capActivities_suffix l⟩
    · rw [capActivities, if_pos h]
    · rw [length_capActivities]; omega
  · intro d book today ts act h
    rw [addSnapshot_snd] at h
    rw [addSnapshot_fst_activities, h]
    simp only [appendActivity]
    by_cases hty : act.type ≠ ActivityType.progress
    · exact ⟨_, List.filter_sublist _, by rw [if_pos hty]⟩
    · exact ⟨d.activities, List.Sublist.refl _, by rw [if_neg hty]⟩
  · intro calls
    induction calls using List.reverseRecOn with
    | nil => simp [applyCalls, DEFAULT_DATA]
    | append_singleton cs c ih =>
        have happ : applyCalls (cs ++ [c]) =
            (addSnapshot (applyCalls cs) c.book c.today c.timestamp).1 := by
          simp [applyCalls, List.foldl_append]
        rw [happ, addSnapshot_fst_activities]
        cases hcl : classifyActivity
            (latestSnapshotFor (applyCalls cs).snapshots c.book.fast_hash)
            c.book c.today c.timestamp with
        | none => exact ih
        | some act =>
            simp only [appendActivity, length_capActivities]
            exact Nat.min_le_right _ _

theorem activities_capped_witness :
    (capActivities (List.replicate 101 act0)).length = 100 ∧
    ∃ base : List ReadingActivity, base.Sublist DEFAULT_DATA.activities ∧
      (addSnapshot DEFAULT_DATA bookFinishedObs "2026-10-11" 200).1.activities =
        capActivities (base ++
          [{ date := "2026-10-11", bookId := "b1", title := "T",
             type := ActivityType.started, progressDelta := none,
             newProgress := some 100, timestamp := some 200 }]) := by
  constructor
  · exact (activities_capped.1 (List.replicate 101 act0) (by simp)).2.1
  · exact activities_capped.2.1 DEFAULT_DATA bookFinishedObs "2026-10-11" 200 _
      (by decide)

/-! ### Record and aggregation lemmas -/

theorem lookupStr_setRecord_self (dp : List (String × ℤ)) (k : String) (v : ℤ) :
    lookupStr (setRecord dp k v) k = some v := by
  induction dp with
  | nil => simp [setRecord, lookupStr]
  | cons p rest ih =>
      obtain ⟨q, w⟩ := p
      by_cases h : q = k
      · simp [setRecord, h, lookupStr]
      · simp [setRecord, h, lookupStr, ih]

theorem lookupStr_setRecord_ne (dp : List (String × ℤ)) (k k' : String) (v : ℤ)
    (h : k ≠ k') : lookupStr (setRecord dp k v) k' = lookupStr dp k' := by
  induction dp with
  | nil => simp [setRecord, lookupStr, h]
  | cons p rest ih =>
      obtain ⟨q, w⟩ := p
      by_cases hq : q = k
      · subst hq
        simp [setRecord, lookupStr, h]
      · simp [setRecord, hq, lookupStr, ih]

theorem foldl_dailyPagesStep (bpc : List (String × ℤ)) (est : ℤ) (dt : String)
    (acts : List ReadingActivity) :
    ∀ dp : List (String × ℤ),
      (lookupStr (acts.foldl (dailyPagesStep bpc est) dp) dt).getD 0 =
        (lookupStr dp dt).getD 0 +
        ((acts.filter (fun a => decide (a.date = dt))).map
          (fun a =>
            if a.type = ActivityType.progress ∧ a.progressDelta.getD 0 ≠ 0 then
              jround (a.progressDelta.getD 0 / 100 * (resolvePageCount bpc a.bookId est : ℚ))
            else 0)).sum := by
  induction acts with
  | nil => intro dp; simp
  | cons a rest ih =>
      intro dp
      rw [List.foldl_cons]
      by_cases hcond : a.type = ActivityType.progress ∧ a.progressDelta.getD 0 ≠ 0
      · have hstep : dailyPagesStep bpc est dp a =
            setRecord dp a.date ((lookupStr dp a.date).getD 0 +
              jround (a.progressDelta.getD 0 / 100 * (resolvePageCount bpc a.bookId est : ℚ))) := by
          simp [dailyPagesStep, hcond]
        by_cases hdt : a.date = dt
        · rw [hstep, ih, hdt, lookupStr_setRecord_self, List.filter_cons,
            if_pos (by simpa using hdt), List.map_cons, List.sum_cons, if_pos hcond]
          simp only [Option.getD_some]
          ring
        · rw [hstep, ih, lookupStr_setRecord_ne _ _ _ _ hdt, List.filter_cons,
            if_neg (by simpa using hdt)]
      · have hstep : dailyPagesStep bpc est dp a = dp := by
          simp [dailyPagesStep, hcond]
        by_cases hdt : a.date = dt
        · rw [hstep, ih, List.filter_cons, if_pos (by simpa using hdt),
            List.map_cons, List.sum_cons, if_neg hcond]
          ring
        · rw [hstep, ih, List.filter_cons, if_neg (by simpa using hdt)]

theorem foldl_estimatedPagesStep (bpc : List (String × ℤ)) (est : ℤ)
    (acts : List ReadingActivity) :
    ∀ total : ℤ,
      acts.foldl (estimatedPagesStep bpc est) total =
        total + (acts.map
          (fun a =>
            if a.progressDelta.getD 0 ≠ 0 then
              jround (a.progressDelta.getD 0 / 100 * (resolvePageCount bpc a.bookId est : ℚ))
            else if a.type = ActivityType.started ∧ a.newProgress.getD 0 ≠ 0 ∧
                a.newProgress.getD 0 < 100 then
              jround (a.newProgress.getD 0 / 100 * (resolvePageCount bpc a.bookId est : ℚ))
            else 0)).sum := by
  induction acts with
  | nil => intro total; simp
  | cons a rest ih =>
      intro total
      rw [List.foldl_cons, List.map_cons, List.sum_cons, ih]
      by_cases h1 : a.progressDelta.getD 0 ≠ 0
      · rw [if_pos h1]
        have : estimatedPagesStep bpc est total a =
            total + jround (a.progressDelta.getD 0 / 100 *
              (resolvePageCount bpc a.bookId est : ℚ)) := by
          simp [estimatedPagesStep, h1]
        rw [this]; ring
      · rw [if_neg h1]
        by_cases h2 : a.type = ActivityType.started ∧ a.newProgress.getD 0 ≠ 0 ∧
            a.newProgress.getD 0 < 100
        · rw [if_pos h2]
          have : estimatedPagesStep bpc est total a =
              total + jround (a.newProgress.getD 0 / 100 *
                (resolvePageCount bpc a.bookId est : ℚ)) := by
            simp [estimatedPagesStep, h1, h2]
          rw [this]; ring
        · rw [if_neg h2]
          have : estimatedPagesStep bpc est total a = total := by
            simp [estimatedPagesStep, h1, h2]
          rw [this]; ring

/-- Claim C5: a `started`/`finished` classification removes any activity
with the same `(bookId, date, type)` before appending, so exactly one such
activity remains; a `progress` classification appends unconditionally
(shown here below the cap); and the analytics daily-page aggregation sums
the page values derived from the `progressDelta` of all `progress`
activities of a date. -/
theorem activity_dedup_append_analytics :
    (∀ (d : ReadingData) (book : BookObs) (today : String) (ts : ℤ)
        (act : ReadingActivity), (addSnapshot d book today ts).2 = some act →
        act.type ≠ ActivityType.progress →
        (addSnapshot d book today ts).1.activities.filter
            (fun a => decide (a.bookId = book.fast_hash ∧ a.date = today ∧
              a.type = act.type)) = [act])
    ∧ (∀ (d : ReadingData) (book : BookObs) (today : String) (ts : ℤ)
        (act : ReadingActivity), (addSnapshot d book today ts).2 = some act →
        act.type = ActivityType.progress → d.activities.length < 100 →
        (addSnapshot d book today ts).1.activities = d.activities ++ [act])
    ∧ (∀ (acts : List ReadingActivity) (bpc : List (String × ℤ)) (est : ℤ)
        (dt : String),
        (lookupStr (computeDailyPages acts bpc est) dt).getD 0 =
          ((acts.filter (fun a => decide (a.date = dt))).map
            (fun a =>
              if a.type = ActivityType.progress ∧ a.progressDelta.getD 0 ≠ 0 then
                jround (a.progressDelta.getD 0 / 100 *
                  (resolvePageCount bpc a.bookId est : ℚ))
              else 0)).sum) := by
  refine ⟨?_, ?_, ?_⟩
  · intro d book today ts act h hty
    rw [addSnapshot_snd] at h
    obtain ⟨hb, hd⟩ := classifyActivity_fields _ _ _ _ _ h
    rw [addSnapshot_fst_activities, h]
    simp only [appendActivity, if_pos hty]
    obtain ⟨k, hk, hcap⟩ := capActivities_append_singleton
      (d.activities.filter (fun a =>
        decide (¬(a.bookId = act.bookId ∧ a.date = act.date ∧ a.type = act.type)))) act
    rw [hcap, List.filter_append]
    have hbase : (d.activities.filter (fun a =>
        decide (¬(a.bookId = act.bookId ∧ a.date = act.date ∧ a.type = act.type)))).filter
          (fun a => decide (a.bookId = book.fast_hash ∧ a.date = today ∧
            a.type = act.type)) = [] := by
      rw [List.filter_filter, List.filter_eq_nil_iff]
      intro a _
      simp only [Bool.and_eq_true, decide_eq_true_eq]
      rintro ⟨hP, hnQ⟩
      exact hnQ ⟨hP.1.trans hb.symm, hP.2.1.trans hd.symm, hP.2.2⟩
    have hdrop : ((d.activities.filter (fun a =>
        decide (¬(a.bookId = act.bookId ∧ a.date = act.date ∧ a.type = act.type)))).drop k).filter
          (fun a => decide (a.bookId = book.fast_hash ∧ a.date = today ∧
            a.type = act.type)) = [] := by
      have hsub := List.Sublist.filter
        (fun a => decide (a.bookId = book.fast_hash ∧ a.date = today ∧ a.type = act.type))
        (List.drop_sublist k (d.activities.filter (fun a =>
          decide (¬(a.bookId = act.bookId ∧ a.date = act.date ∧ a.type = act.type)))))
      rw [hbase] at hsub
      exact List.sublist_nil.mp hsub
    rw [hdrop]
    simp [hb, hd]
  · intro d book today ts act h hty hlen
    rw [addSnapshot_snd] at h
    rw [addSnapshot_fst_activities, h]
    simp only [appendActivity, if_neg (not_not_intro hty)]
    exact capActivities_of_le _ (by simp only [List.length_append,
      List.length_cons, List.length_nil]; omega)
  · intro acts bpc est dt
    rw [computeDailyPages, foldl_dailyPagesStep]
    simp [lookupStr]

theorem activity_dedup_append_analytics_witness :
    (addSnapshot dataWithSnap bookFinishedObs "2026-10-11" 200).1.activities.filter
        (fun a => decide (a.bookId = "b1" ∧ a.date = "2026-10-11" ∧
          a.type = ActivityType.finished)) =
      [{ date := "2026-10-11", bookId := "b1", title := "T",
         type := ActivityType.finished, progressDelta := some 50,
         newProgress := some 100, timestamp := some 200 }] := by
  have hsnap : (addSnapshot dataWithSnap bookFinishedObs "2026-10-11" 200).2 =
      some { date := "2026-10-11", bookId := "b1", title := "T",
             type := ActivityType.finished, progressDelta := some 50,
             newProgress := some 100, timestamp := some 200 } := by
    rw [addSnapshot_snd]
    have hl : latestSnapshotFor dataWithSnap.snapshots bookFinishedObs.fast_hash =
        some snapB1 := rfl
    rw [hl]
    have hs1 : ("read" : String) ≠ "" := by decide
    have hs2 : ("reading" : String) ≠ "read" := by decide
    norm_num [classifyActivity, snapB1, bookFinishedObs, normStatus, hs1, hs2]
  have h := activity_dedup_append_analytics.1 dataWithSnap bookFinishedObs
    "2026-10-11" 200
    { date := "2026-10-11", bookId := "b1", title := "T",
      type := ActivityType.finished, progressDelta := some 50,
      newProgress := some 100, timestamp := some 200 }
    hsnap (by decide)
  simpa [bookFinishedObs] using h

/-- Claim C3 is falsified by the code: a `finished` activity also enters the
estimated-pages-today total, because the source tests the truthiness of
`progressDelta` rather than `type === 'progress'`.  On a store holding one
`finished` activity with a delta of 50 and the default estimate of 300
pages, the code yields 150 pages while the claimed computation yields 0. -/
theorem getEstimatedPagesToday_counterexample :
    getEstimatedPagesToday dataFinishedToday "2026-10-11" 300 = 150 ∧
    claimedEstimatedPagesToday dataFinishedToday "2026-10-11" 300 = 0 ∧
    getEstimatedPagesToday dataFinishedToday "2026-10-11" 300 ≠
      claimedEstimatedPagesToday dataFinishedToday "2026-10-11" 300 := by
  have h1 : getEstimatedPagesToday dataFinishedToday "2026-10-11" 300 = 150 := by
    simp [getEstimatedPagesToday, getTodayActivity, dataFinishedToday,
      DEFAULT_DATA, finishedAct, estimatedPagesStep, resolvePageCount, lookupStr]
    norm_num [jround]
  have h2 : claimedEstimatedPagesToday dataFinishedToday "2026-10-11" 300 = 0 := by
    simp [claimedEstimatedPagesToday, getTodayActivity, dataFinishedToday,
      DEFAULT_DATA, finishedAct]
  exact ⟨h1, h2, by rw [h1, h2]; decide⟩

/-- Claim C3 (amended): `getEstimatedPagesToday` sums, over today's
activities, `round(progressDelta/100 * pageCount)` for every activity whose
`progressDelta` is present and nonzero (`progress` and `finished` alike),
plus `round(newProgress/100 * pageCount)` for `started` activities whose
`newProgress` is nonzero and below 100; `pageCount` resolves to the
per-book entry of `bookPageCounts` when present and nonzero, else the
configured default estimate. -/
theorem getEstimatedPagesToday_amended (d : ReadingData) (today : String) (est : ℤ) :
    getEstimatedPagesToday d today est =
      ((getTodayActivity d today).map
        (fun a =>
          if a.progressDelta.getD 0 ≠ 0 then
            jround (a.progressDelta.getD 0 / 100 *
              (resolvePageCount d.bookPageCounts a.bookId est : ℚ))
          else if a.type = ActivityType.started ∧ a.newProgress.getD 0 ≠ 0 ∧
              a.newProgress.getD 0 < 100 then
            jround (a.newProgress.getD 0 / 100 *
              (resolvePageCount d.bookPageCounts a.bookId est : ℚ))
          else 0)).sum := by
  rw [getEstimatedPagesToday, foldl_estimatedPagesStep, zero_add]

/-! ### Calendar lemmas for the heatmap -/

theorem daysInMonth_pos (y m : ℕ) : 1 ≤ daysInMonth y m := by
  unfold daysInMonth
  split_ifs <;> omega

theorem daysInMonth_le (y m : ℕ) : daysInMonth y m ≤ 31 := by
  unfold daysInMonth
  split_ifs <;> omega

theorem daysInMonth_twelve (y : ℕ) : daysInMonth y 12 = 31 := rfl

theorem daysFrom_cons_day (y m d : ℕ) (h : d < daysInMonth y m) :
    daysFrom y m d = (m, d) :: daysFrom y m (d + 1) := by
  unfold daysFrom
  have h1 : daysInMonth y m + 1 - d = (daysInMonth y m - d) + 1 := by omega
  have h2 : daysInMonth y m + 1 - (d + 1) = daysInMonth y m - d := by omega
  rw [h1, h2, List.range'_succ]
  simp

theorem daysFrom_cons_month (y m : ℕ) (hm12 : m < 12) :
    daysFrom y m (daysInMonth y m) =
      (m, daysInMonth y m) :: daysFrom y (m + 1) 1 := by
  unfold daysFrom
  have h1 : daysInMonth y m + 1 - daysInMonth y m = 1 := by omega
  have h2 : 12 - m = (12 - (m + 1)) + 1 := by omega
  rw [h1, h2, List.range'_succ, List.range'_succ, List.flatMap_cons]
  simp [monthDays, Nat.add_sub_cancel]

theorem daysFrom_last (y : ℕ) : daysFrom y 12 31 = [(12, 31)] := rfl

theorem daysFrom_one_one (y : ℕ) : daysFrom y 1 1 = yearDays y := by
  unfold daysFrom yearDays
  have h12 : List.range' 1 12 = 1 :: List.range' 2 11 := rfl
  rw [h12, List.flatMap_cons]
  simp [monthDays, Nat.add_sub_cancel]

theorem heatmapLoop_next_year (dp : List (String × ℤ)) (year fuel : ℕ) :
    heatmapLoop dp year fuel (year + 1) 1 1 = [] := by
  cases fuel with
  | zero => rfl
  | succ n =>
      simp only [heatmapLoop]
      rw [if_neg (by omega)]

theorem heatmapLoop_eq (dp : List (String × ℤ)) (year : ℕ) :
    ∀ (fuel m d : ℕ), 1 ≤ m → m ≤ 12 → 1 ≤ d → d ≤ daysInMonth year m →
      (daysFrom year m d).length ≤ fuel →
      heatmapLoop dp year fuel year m d =
        (daysFrom year m d).map
          (fun md => { date := toLocalDateString year md.1 md.2
                       pages := (lookupStr dp (toLocalDateString year md.1 md.2)).getD 0 }) := by
  intro fuel
  induction fuel with
  | zero =>
      intro m d hm1 hm12 hd1 hdim hlen
      exfalso
      have hpos : 1 ≤ (daysFrom year m d).length := by
        unfold daysFrom
        simp only [List.length_append, List.length_map, List.length_range']
        omega
      omega
  | succ n ih =>
      intro m d hm1 hm12 hd1 hdim hlen
      simp only [heatmapLoop]
      have hcond : year < year ∨ (True ∧ (m < 12 ∨ (m = 12 ∧ d ≤ 31))) := by
        refine Or.inr ⟨trivial, ?_⟩
        have h31 := daysInMonth_le year m
        omega
      rw [if_pos hcond]
      by_cases hday : d < daysInMonth year m
      · have hcons := daysFrom_cons_day year m d hday
        have hlen2 : (daysFrom year m (d + 1)).length ≤ n := by
          rw [hcons] at hlen
          simpa using hlen
        rw [if_pos hday, ih m (d + 1) hm1 hm12 (by omega) hday hlen2, hcons,
          List.map_cons]
      · have hd : d = daysInMonth year m := by omega
        subst hd
        by_cases hm : m < 12
        · have hcons := daysFrom_cons_month year m hm
          have hlen2 : (daysFrom year (m + 1) 1).length ≤ n := by
            rw [hcons] at hlen
            simpa using hlen
          rw [if_neg hday, if_pos hm,
            ih (m + 1) 1 (by omega) (by omega) (by omega) (daysInMonth_pos year (m + 1)) hlen2,
            hcons, List.map_cons]
        · have hm12eq : m = 12 := by omega
          subst hm12eq
          rw [if_neg hday, if_neg hm, heatmapLoop_next_year]
          simp only [daysInMonth_twelve]
          rw [daysFrom_last, List.map_cons, List.map_nil]

theorem length_yearDays (y : ℕ) :
    (yearDays y).length = if isLeapYear y then 366 else 365 := by
  have h12 : List.range' 1 12 = [1, 2, 3, 4, 5, 6, 7, 8, 9, 10, 11, 12] := rfl
  by_cases h : isLeapYear y = true
  · simp [yearDays, h12, monthDays, daysInMonth, h]
  · simp [yearDays, h12, monthDays, daysInMonth, h]

theorem getHeatmapData_eq (year : ℕ) (dp : List (String × ℤ)) :
    getHeatmapData year dp =
      (yearDays year).map
        (fun md => { date := toLocalDateString year md.1 md.2
                     pages := (lookupStr dp (toLocalDateString year md.1 md.2)).getD 0 }) := by
  rw [getHeatmapData, heatmapLoop_eq dp year 400 1 1 (by omega) (by omega) (by omega)
    (daysInMonth_pos year 1) ?hlen, daysFrom_one_one]
  case hlen =>
    rw [daysFrom_one_one, length_yearDays]
    split <;> omega

theorem pairwise_flatMap_monthDays (y : ℕ) :
    ∀ (n s : ℕ), List.Pairwise
      (fun a b : ℕ × ℕ => a.1 < b.1 ∨ (a.1 = b.1 ∧ a.2 < b.2))
      ((List.range' s n).flatMap (monthDays y)) := by
  intro n
  induction n with
  | zero => intro s; simp
  | succ k ih =>
      intro s
      rw [List.range'_succ, List.flatMap_cons, List.pairwise_append]
      refine ⟨?_, ih (s + 1), ?_⟩
      · unfold monthDays
        rw [List.pairwise_map]
        apply List.Pairwise.imp ?_ (List.pairwise_lt_range' 1 (daysInMonth y s))
        intro a b hab
        exact Or.inr ⟨rfl, hab⟩
      · intro a ha b hb
        have ha1 : a.1 = s := by
          unfold monthDays at ha
          obtain ⟨d, _, hd⟩ := List.mem_map.mp ha
          rw [← hd]
        have hb1 : s + 1 ≤ b.1 := by
          obtain ⟨m', hm', hbm⟩ := List.mem_flatMap.mp hb
          obtain ⟨i, _, hi⟩ := List.mem_range'.mp hm'
          have : b.1 = m' := by
            unfold monthDays at hbm
            obtain ⟨d, _, hd⟩ := List.mem_map.mp hbm
            rw [← hd]
          omega
        exact Or.inl (by omega)

theorem pairwise_yearDays (y : ℕ) :
    List.Pairwise (fun a b : ℕ × ℕ => a.1 < b.1 ∨ (a.1 = b.1 ∧ a.2 < b.2))
      (yearDays y) :=
  pairwise_flatMap_monthDays y 12 1

/-- Claim C9: `getHeatmapData` returns exactly one cell per calendar day of
the year, January 1 through December 31 in calendar order (`yearDays`
enumerates the `(month, day)` pairs and is strictly increasing in the
calendar order), with `pages` equal to the `dailyPages` entry when present
and 0 otherwise; and the dashboard colour assignment uses exactly the
thresholds `>= 50`, `>= 30`, `>= 15`, `> 0` and `0`, so 14 pages fall in
the `> 0` bucket, 15 in the next bucket up, 49 in the same bucket as 30,
and 50 in the top bucket. -/
theorem getHeatmapData_spec :
    (∀ (year : ℕ) (dp : List (String × ℤ)),
        getHeatmapData year dp =
          (yearDays year).map
            (fun md => { date := toLocalDateString year md.1 md.2
                         pages := (lookupStr dp (toLocalDateString year md.1 md.2)).getD 0 }))
    ∧ (∀ (year : ℕ) (dp : List (String × ℤ)),
        (getHeatmapData year dp).length = if isLeapYear year then 366 else 365)
    ∧ (∀ year : ℕ, List.Pairwise
        (fun a b : ℕ × ℕ => a.1 < b.1 ∨ (a.1 = b.1 ∧ a.2 < b.2)) (yearDays year))
    ∧ (∀ (year : ℕ) (dp : List (String × ℤ)) (cell : HeatCell),
        cell ∈ getHeatmapData year dp →
        cell.pages = (lookupStr dp cell.date).getD 0)
    ∧ (∀ p : ℤ, 50 ≤ p → heatmapColor p = "#22c55e")
    ∧ (∀ p : ℤ, 30 ≤ p → p < 50 → heatmapColor p = "#4ade80")
    ∧ (∀ p : ℤ, 15 ≤ p → p < 30 → heatmapColor p = "#86efac")
    ∧ (∀ p : ℤ, 0 < p → p < 15 → heatmapColor p = "#bbf7d0")
    ∧ heatmapColor 0 = "var(--background-modifier-border)"
    ∧ heatmapColor 14 = "#bbf7d0" ∧ heatmapColor 15 = "#86efac"
    ∧ heatmapColor 49 = heatmapColor 30 ∧ heatmapColor 50 = "#22c55e" := by
  refine ⟨getHeatmapData_eq, ?_, pairwise_yearDays, ?_, ?_, ?_, ?_, ?_, ?_, ?_, ?_, ?_, ?_⟩
  · intro year dp
    rw [getHeatmapData_eq, List.length_map, length_yearDays]
  · intro year dp cell hmem
    rw [getHeatmapData_eq] at hmem
    obtain ⟨md, _, hcell⟩ := List.mem_map.mp hmem
    rw [← hcell]
  · intro p h
    rw [heatmapColor, if_pos (by omega), if_pos h]
  · intro p h1 h2
    rw [heatmapColor, if_pos (by omega), if_neg (by omega), if_pos h1]
  · intro p h1 h2
    rw [heatmapColor, if_pos (by omega), if_neg (by omega), if_neg (by omega), if_pos h1]
  · intro p h1 h2
    rw [heatmapColor, if_pos h1, if_neg (by omega), if_neg (by omega), if_neg (by omega)]
  · rfl
  · rfl
  · rfl
  · rfl
  · rfl

theorem getHeatmapData_spec_witness :
    heatmapColor 60 = "#22c55e" ∧ heatmapColor 35 = "#4ade80" ∧
    heatmapColor 20 = "#86efac" ∧ heatmapColor 7 = "#bbf7d0" ∧
    (getHeatmapData 2025 []).length = 365 ∧
    (getHeatmapData 2024 []).length = 366 :=
  ⟨getHeatmapData_spec.2.2.2.2.1 60 (by omega),
   getHeatmapData_spec.2.2.2.2.2.1 35 (by omega) (by omega),
   getHeatmapData_spec.2.2.2.2.2.2.1 20 (by omega) (by omega),
   getHeatmapData_spec.2.2.2.2.2.2.2.1 7 (by omega) (by omega),
   by rw [getHeatmapData_spec.2.1 2025 []]; rfl,
   by rw [getHeatmapData_spec.2.1 2024 []]; rfl⟩
